import Mathlib

set_option maxRecDepth 8000

/-!
Verification development for the inception.streams.multipart codec.

The first half of this file is a shallow embedding of the repository's
byte-level scanner (`lib/multipart_byte_parser.js` together with its state
container `lib/multipart_byte_parser_state.js`), of the part-assembly layer
(`MultipartParser`), and of the encoder (`lib/multipart_streamer.js` and
`lib/part.js`).  Bytes are `Nat` (values below 256; the sentinel 256 stands
for the JavaScript `undefined` produced by an out-of-bounds buffer read).
The second half states and proves properties of those definitions.
-/

/-- States of the scanner state machine (`MultipartByteParserState.STATES`). -/
inductive STATE
  | INITIALIZED
  | BOUNDARY
  | HEADER_NAME_START
  | HEADER_NAME
  | HEADER_VALUE_START
  | HEADER_VALUE
  | HEADER_VALUE_END
  | HEADERS_END
  | PART_DATA_START
  | PART_DATA
  | END
deriving DecidableEq, Repr

/-- Events emitted by the byte parser.  Data-carrying events hold the bytes of
the slice the JavaScript code passes to `this.emit(event, buffer.slice(start, end))`.
`endOfMessage` is the `end` event emitted by the `finish` handler. -/
inductive Event
  | partBegin
  | headersEnd
  | partEnd
  | endOfMessage
  | headerName (bytes : List Nat)
  | headerValue (bytes : List Nat)
  | partData (bytes : List Nat)
deriving DecidableEq, Repr

/-- The scanner state (`MultipartByteParserState`): machine state, error flag,
the two flag bits `PART_BOUNDARY` and `FINAL_BOUNDARY`, the match index (an
integer, since the `BOUNDARY` state can drive it to -2), the lookbehind
buffer, and the three named position markers. -/
structure ByteParserState where
  state : STATE
  error : Bool
  partBoundary : Bool
  finalBoundary : Bool
  index : Int
  lookbehind : List Nat
  markHeaderName : Option Nat
  markHeaderValue : Option Nat
  markPartData : Option Nat
deriving DecidableEq, Repr

/-- Fresh state for a decode session (`new MultipartByteParserState(boundaryLength)`);
the JavaScript lookbehind buffer is `boundaryLength + 8` uninitialized bytes, of
which only previously written positions are ever read, so zeros are faithful. -/
def initState (boundaryLength : Nat) : ByteParserState :=
  { state := .INITIALIZED
    error := false
    partBoundary := false
    finalBoundary := false
    index := 0
    lookbehind := List.replicate (boundaryLength + 8) 0
    markHeaderName := none
    markHeaderValue := none
    markPartData := none }

/-- Bytes of a string, one `Nat` per character code. -/
def strBytes (s : String) : List Nat := s.data.map Char.toNat

/-- The full message boundary (`MultipartByteParser._constructBoundary`):
CR LF `-` `-` followed by the configured delimiter bytes. -/
def constructBoundary (b : List Nat) : List Nat := [13, 10, 45, 45] ++ b

/-- Membership in the boundary-character map
(`MultipartByteParser._getBoundaryChars`). -/
def boundaryChars (bd : List Nat) (b : Nat) : Bool := bd.contains b

/-- `buffer.slice(start, stop)` for non-negative clamped indices. -/
def jsSlice (l : List Nat) (start stop : Nat) : List Nat := (l.drop start).take (stop - start)

/-- Indexing a byte buffer at a possibly negative index; out of range reads
give the sentinel 256 (JavaScript `undefined`), which compares unequal to
every actual byte. -/
def bgetI (l : List Nat) (i : Int) : Nat :=
  if 0 ≤ i then l.getD i.toNat 256 else 256

/-- Outcome of processing one loop iteration of `_transform`: continue at
`nextPos`, break out of the chunk without flushing (`return done()` in the
`END` state), or fail with a `ParseError` message (`return done(metadata)`). -/
inductive IterOut
  | cont (s : ByteParserState) (nextPos : Nat) (evs : List Event)
  | brk (s : ByteParserState) (evs : List Event)
  | fail (s : ByteParserState) (msg : String)

/-- The `emit(event, buffer, start, end)` helper without `resetMarker`: emits
only when the marker is set and the span is non-empty, in which case the
marker is cleared; an empty span leaves the marker in place. -/
def emitSlice (mk : List Nat → Event) (buf : List Nat) (marker : Option Nat) (stop : Nat) :
    List Event × Option Nat :=
  match marker with
  | none => ([], none)
  | some start => if start < stop then ([mk (jsSlice buf start stop)], none) else ([], some start)

/-- The `emit(event, buffer, start, end, true)` helper used at end of chunk:
emits the non-empty span and re-marks the event at offset 0; an empty span
leaves the marker in place. -/
def flushSpan (mk : List Nat → Event) (buf : List Nat) (marker : Option Nat) (stop : Nat) :
    List Event × Option Nat :=
  match marker with
  | none => ([], none)
  | some start => if start < stop then ([mk (jsSlice buf start stop)], some 0) else ([], some start)

/-- The `STATES.BOUNDARY` case of `_transform`.  Bytes 45, 13, 10 are `-`,
CR, LF. -/
def boundaryCase (bd chunk : List Nat) (s : ByteParserState) (pos : Nat) : IterOut :=
  let L : Int := bd.length
  let b := chunk.getD pos 256
  if s.index = L - 2 then
    if b = 45 then .cont { s with finalBoundary := true, index := s.index + 1 } (pos + 1) []
    else if b = 13 then .cont { s with index := s.index + 1 } (pos + 1) []
    else .fail s "Multipart message boundary not followed by -- or <CR><LF>!"
  else if s.index = L - 1 then
    if s.finalBoundary ∧ b = 45 then
      .cont { s with partBoundary := false, finalBoundary := false, state := .END } (pos + 1) []
    else if ¬ s.finalBoundary ∧ b = 10 then
      .cont { s with state := .HEADER_NAME_START } (pos + 1) [.partBegin]
    else .fail s "Multipart message boundary not followed by -- or <CR><LF>!"
  else
    let i1 : Int := if b ≠ bgetI bd (s.index + 2) then -2 else s.index
    let i2 : Int := if b = bgetI bd (i1 + 2) then i1 + 1 else i1
    .cont { s with index := i2 } (pos + 1) []

/-- The `STATES.HEADER_NAME` case.  `lodash.inRange(lowByte, 97, 122)` is
end-exclusive, exactly as in the source. Bytes 45, 58, 13 are `-`, `:`, CR. -/
def headerNameCase (chunk : List Nat) (s : ByteParserState) (pos : Nat) : IterOut :=
  let b := chunk.getD pos 256
  let low := b ||| 32
  if (97 ≤ low ∧ low < 122) ∨ b = 45 then
    .cont { s with index := s.index + 1 } (pos + 1) []
  else if b = 58 then
    if s.index ≠ 0 then
      let em := emitSlice .headerName chunk s.markHeaderName pos
      .cont { s with markHeaderName := em.2, state := .HEADER_VALUE_START } (pos + 1) em.1
    else .fail s "Empty header name!"
  else if b = 13 then
    .cont { s with markHeaderName := none, state := .HEADERS_END } (pos + 1) []
  else .fail s "Invalid character found parsing header field name!"

/-- The `STATES.HEADER_VALUE` case. -/
def headerValueCase (chunk : List Nat) (s : ByteParserState) (pos : Nat) : IterOut :=
  let b := chunk.getD pos 256
  if b = 13 then
    let em := emitSlice .headerValue chunk s.markHeaderValue pos
    .cont { s with markHeaderValue := em.2, state := .HEADER_VALUE_END } (pos + 1) em.1
  else .cont s (pos + 1) []

/-- Loop of the fast boundary skip inside `STATES.PART_DATA`: starting at a
probe position, jump by the boundary length until the probed byte is a
boundary character or the chunk is exhausted. -/
def fastSkipAux (bd chunk : List Nat) : Nat → Nat → Nat
  | 0, p => p
  | fuel + 1, p =>
    if p < chunk.length ∧ ¬ boundaryChars bd (chunk.getD p 0) then
      fastSkipAux bd chunk fuel (p + bd.length)
    else p

/-- The fast skip: advance by `boundaryLength - 1`, jump in strides of the
boundary length while no boundary character is seen, then step back by
`boundaryLength - 1`. -/
def fastSkip (bd chunk : List Nat) (pos : Nat) : Nat :=
  fastSkipAux bd chunk (chunk.length + 1) (pos + (bd.length - 1)) - (bd.length - 1)

/-- The tail of the `STATES.PART_DATA` case: record the current byte in the
lookbehind when mid-candidate; otherwise, when a candidate just failed, flush
the withheld lookbehind bytes as part data, re-mark the part-data span at the
current position and rewind the scan position by one (the returned next
position equals `p`). -/
def phaseB (s : ByteParserState) (prevIndex : Int) (p : Nat) (b : Nat) (evs : List Event) :
    IterOut :=
  if 0 < s.index then
    .cont { s with lookbehind := s.lookbehind.set (s.index - 1).toNat b } (p + 1) evs
  else if 0 < prevIndex then
    .cont { s with markPartData := some p } p
      (evs ++ [.partData (jsSlice s.lookbehind 0 prevIndex.toNat)])
  else .cont s (p + 1) evs

/-- The `STATES.PART_DATA` case of `_transform`. -/
def partDataCase (bd chunk : List Nat) (s : ByteParserState) (pos : Nat) : IterOut :=
  let L : Int := bd.length
  let prevIndex := s.index
  let p := if s.index = 0 then fastSkip bd chunk pos else pos
  let b := chunk.getD p 256
  if s.index < L then
    if b = bgetI bd s.index then
      if s.index = 0 then
        let em := emitSlice .partData chunk s.markPartData p
        phaseB { s with markPartData := em.2, index := s.index + 1 } prevIndex p b em.1
      else
        phaseB { s with index := s.index + 1 } prevIndex p b []
    else
      phaseB { s with index := 0 } prevIndex p b []
  else if s.index = L then
    if b = 13 then
      phaseB { s with index := s.index + 1, partBoundary := true } prevIndex p b []
    else if b = 45 then
      phaseB { s with index := s.index + 1, finalBoundary := true } prevIndex p b []
    else
      phaseB { s with index := 0 } prevIndex p b []
  else if s.index - 1 = L then
    if s.partBoundary then
      if b = 10 then
        .cont { s with index := 0, partBoundary := false, state := .HEADER_NAME_START }
          (p + 1) [.partEnd, .partBegin]
      else
        phaseB { s with index := 0 } prevIndex p b []
    else if s.finalBoundary then
      if b = 45 then
        phaseB { s with state := .END, partBoundary := false, finalBoundary := false }
          prevIndex p b [.partEnd]
      else
        phaseB { s with index := 0 } prevIndex p b []
    else
      phaseB { s with index := 0 } prevIndex p b []
  else
    phaseB s prevIndex p b []

/-- One iteration of the `_transform` scanning loop at position `pos`
(the `switch (state.state)`), including the deliberate fall-throughs from the
`*_START` states. -/
def iter (bd chunk : List Nat) (s : ByteParserState) (pos : Nat) : IterOut :=
  let b := chunk.getD pos 256
  match s.state with
  | .INITIALIZED => boundaryCase bd chunk { s with index := 0, state := .BOUNDARY } pos
  | .BOUNDARY => boundaryCase bd chunk s pos
  | .HEADER_NAME_START =>
      headerNameCase chunk
        { s with index := 0, markHeaderName := some pos, state := .HEADER_NAME } pos
  | .HEADER_NAME => headerNameCase chunk s pos
  | .HEADER_VALUE_START =>
      if b = 32 then .cont s (pos + 1) []
      else headerValueCase chunk { s with markHeaderValue := some pos, state := .HEADER_VALUE } pos
  | .HEADER_VALUE => headerValueCase chunk s pos
  | .HEADER_VALUE_END =>
      if b = 10 then .cont { s with state := .HEADER_NAME_START } (pos + 1) []
      else .fail s "Header value not followed by <CR><LF>!"
  | .HEADERS_END =>
      if b = 10 then .cont { s with state := .PART_DATA_START } (pos + 1) [.headersEnd]
      else .fail s "Headers not followed by <CR><LF>!"
  | .PART_DATA_START =>
      partDataCase bd chunk { s with markPartData := some pos, state := .PART_DATA } pos
  | .PART_DATA => partDataCase bd chunk s pos
  | .END => .brk s []

/-- How a chunk's scanning loop finished: ran off the end of the chunk
(`normal`, followed by the end-of-chunk flush), returned early from the `END`
state, or failed with a `ParseError`; `nofuel` is unreachable for the fuel
`transform` supplies. -/
inductive LoopEnd
  | normal
  | early
  | failure (msg : String)
  | nofuel
deriving DecidableEq, Repr

/-- The scanning loop of `_transform`, with explicit fuel (each iteration of
the JavaScript `for` loop consumes one unit; a position is visited at most
twice, so `2 * chunk.length + 2` units always suffice). -/
def scanLoop (bd chunk : List Nat) :
    Nat → ByteParserState → Nat → List Event →
    ByteParserState × Nat × List Event × LoopEnd
  | 0, s, pos, acc => (s, pos, acc, .nofuel)
  | fuel + 1, s, pos, acc =>
    if pos < chunk.length then
      match iter bd chunk s pos with
      | .cont s' next evs => scanLoop bd chunk fuel s' next (acc ++ evs)
      | .brk s' evs => (s', pos, acc ++ evs, .early)
      | .fail s' msg => (s', pos, acc, .failure msg)
    else (s, pos, acc, .normal)

/-- `MultipartByteParser.prototype._transform` on one chunk: early exit when
the state has errored, then the scanning loop, then (on normal loop exit
only) the end-of-chunk flush of the three marked spans.  Returns the new
state, the emitted events in order, and the `ParseError` message handed to
`done`, if any. -/
def transform (bd : List Nat) (s : ByteParserState) (chunk : List Nat) :
    ByteParserState × List Event × Option String :=
  if s.error then (s, [], none)
  else
    match scanLoop bd chunk (2 * chunk.length + 2) s 0 [] with
    | (s', pos, evs, .normal) =>
        let fn := flushSpan .headerName chunk s'.markHeaderName pos
        let fv := flushSpan .headerValue chunk s'.markHeaderValue pos
        let fd :=
          if s'.state = STATE.PART_DATA ∧ s'.index ≠ 0 then (([] : List Event), s'.markPartData)
          else flushSpan .partData chunk s'.markPartData pos
        ({ s' with markHeaderName := fn.2, markHeaderValue := fv.2, markPartData := fd.2 },
         evs ++ fn.1 ++ fv.1 ++ fd.1, none)
    | (s', _, evs, .early) => (s', evs, none)
    | (s', _, evs, .failure msg) => ({ s' with error := true }, evs, some msg)
    | (s', _, evs, .nofuel) => (s', evs, none)

/-- Signal produced by the stream `finish` handler. -/
inductive FinishSignal
  | endSignal
  | parseError
deriving DecidableEq, Repr

/-- The `finish` handler of `MultipartByteParser`: emit `end` when the
scanner is in the `END` state, otherwise set the error flag and emit a
`ParseError` for the unexpected end of the message. -/
def onFinish (s : ByteParserState) : FinishSignal × ByteParserState :=
  if s.state = STATE.END then (.endSignal, s)
  else (.parseError, { s with error := true })

/-- Feed a list of chunks through `transform`, threading the state and
collecting the emitted events and the first error. -/
def runChunks (bd : List Nat) : ByteParserState → List (List Nat) →
    ByteParserState × List Event × Option String
  | s, [] => (s, [], none)
  | s, c :: cs =>
    let r1 := transform bd s c
    let r2 := runChunks bd r1.1 cs
    (r2.1, r1.2.1 ++ r2.2.1,
      match r1.2.2 with
      | some m => some m
      | none => r2.2.2)

/-- A whole decode session: a fresh state, the given chunk deliveries, then
the `finish` handler.  Yields the full event sequence (with `endOfMessage`
appended on clean completion) and the error, if any. -/
def sessionEvents (bd : List Nat) (chunks : List (List Nat)) : List Event × Option String :=
  let r := runChunks bd (initState bd.length) chunks
  match r.2.2 with
  | some m => (r.2.1, some m)
  | none =>
    match (onFinish r.1).1 with
    | .endSignal => (r.2.1 ++ [.endOfMessage], none)
    | .parseError => (r.2.1, some "Unexpected end of multipart message!")

/-- Concatenate successive event fragments that belong to the same logical
header-name, header-value, or part-data span, as the claim's fragment
concatenation prescribes. -/
def mergeEvents : List Event → List Event
  | [] => []
  | e :: rest =>
    match e, mergeEvents rest with
    | .headerName a, .headerName b :: r => .headerName (a ++ b) :: r
    | .headerValue a, .headerValue b :: r => .headerValue (a ++ b) :: r
    | .partData a, .partData b :: r => .partData (a ++ b) :: r
    | e', r => e' :: r

/-! Part-assembly layer (`MultipartParser`). -/

/-- The closed error taxonomy of `lib/multipart_error.js` (plus `Unexpected`,
used only by the encoder). -/
inductive MultipartErrorKind
  | BadContentType
  | ParseError
  | UnsupportedEncoding
  | TooManyParts
  | PartTooLarge
  | MessageTooLarge
  | Unexpected
deriving DecidableEq, Repr

/-- The guard of `MultipartParser.prototype._onPartBegin`:
`this.parts.length >= this.maxParts - 1`. -/
def onPartBeginCheck (maxParts partsLen : Nat) : Bool := maxParts - 1 ≤ partsLen

/-- Drive the assembler through a message of `n` parts: for each part, the
`partBegin` handler first applies `onPartBeginCheck`; on failure the session
halts with `TooManyParts` and the result records the 1-based number of the
offending part (whose headers are never processed); otherwise the part's
headers run to `headersEnd`, which pushes the part (incrementing
`parts.length`), and scanning continues with the next part. -/
def runParts (maxParts : Nat) : Nat → Nat → Option Nat
  | 0, _ => none
  | n + 1, partsLen =>
    if onPartBeginCheck maxParts partsLen then some (partsLen + 1)
    else runParts maxParts n (partsLen + 1)

/-- Per-part and per-session byte accounting of
`MultipartParser.prototype._onPartData`: the fragment's length is added to
the per-part count and checked against `maxPartSize`, then added to the
session count and checked against `maxTotalSize`, and only then is the
fragment forwarded (appended to `forwarded`). -/
structure PartSizeState where
  partSize : Nat
  totalSize : Nat
  forwarded : List (List Nat)
deriving DecidableEq, Repr

/-- One `partData` event through the size checks of `_onPartData`. -/
def onPartDataSize (maxPartSize maxTotalSize : Nat) (s : PartSizeState) (chunk : List Nat) :
    Except MultipartErrorKind PartSizeState :=
  let ps := s.partSize + chunk.length
  if maxPartSize < ps then .error .PartTooLarge
  else
    let ts := s.totalSize + chunk.length
    if maxTotalSize < ts then .error .MessageTooLarge
    else .ok { partSize := ps, totalSize := ts, forwarded := s.forwarded ++ [chunk] }

/-- Outcome of feeding one part's body fragments: either a limit error raised
while processing some `partData` fragment, or completion, which is when the
`partEnd` handler would run. -/
inductive PartRunOutcome
  | dataError (e : MultipartErrorKind)
  | completedAtPartEnd (forwarded : List (List Nat))
deriving DecidableEq, Repr

/-- Feed a part's body fragments through `_onPartData` in order; `partEnd`
is reached only when every fragment passed the size checks. -/
def runPartBody (maxPartSize maxTotalSize : Nat) (s : PartSizeState) :
    List (List Nat) → PartRunOutcome
  | [] => .completedAtPartEnd s.forwarded
  | c :: cs =>
    match onPartDataSize maxPartSize maxTotalSize s c with
    | .error e => .dataError e
    | .ok s' => runPartBody maxPartSize maxTotalSize s' cs

/-! Incremental base64 decoding (the `base64` branches of `_onPartData` and
`_onPartEnd`). -/

/-- Value of one base64 alphabet character, matching Node's `unbase64_table`
(which also accepts the URL-safe characters `-` and `_`); `=` padding and
every other character map to no value. -/
def b64val (c : Nat) : Option Nat :=
  if 65 ≤ c ∧ c ≤ 90 then some (c - 65)
  else if 97 ≤ c ∧ c ≤ 122 then some (c - 97 + 26)
  else if 48 ≤ c ∧ c ≤ 57 then some (c - 48 + 52)
  else if c = 43 ∨ c = 45 then some 62
  else if c = 47 ∨ c = 95 then some 63
  else none

/-- The sextet stream Node's base64 decoder extracts from a text: characters
outside the alphabet are skipped globally, and the first `=` (byte 61) stops
decoding entirely, whatever its position. -/
def b64sextets : List Nat → List Nat
  | [] => []
  | c :: rest =>
    if c = 61 then []
    else
      match b64val c with
      | some w => w :: b64sextets rest
      | none => b64sextets rest

/-- Reassemble bytes from a sextet stream, consuming it in groups of four
(the `V`-chain of Node's `base64_decode_slow`): four sextets give three
bytes, a trailing group of three gives two, of two gives one, of one gives
none. -/
def b64bytes : List Nat → List Nat
  | v0 :: v1 :: v2 :: v3 :: rest =>
    (v0 * 4 + v1 / 16) :: (v1 % 16 * 16 + v2 / 4) :: (v2 % 4 * 64 + v3) :: b64bytes rest
  | [v0, v1] => [v0 * 4 + v1 / 16]
  | [v0, v1, v2] => [v0 * 4 + v1 / 16, v1 % 16 * 16 + v2 / 4]
  | _ => []

/-- Base64 decoding, modelling `new Buffer(str, 'base64')`: Node skips
invalid characters globally (regrouping the surviving sextets across them)
and stops at the first `=`; the destination-size estimate Node allocates
never truncates the output, so it is omitted. -/
def b64decode (s : List Nat) : List Nat := b64bytes (b64sextets s)

/-- `chunk.toString('ascii')` on a byte buffer: every byte is masked to seven
bits. -/
def asciiOf (chunk : List Nat) : List Nat := chunk.map (fun b => b % 128)

/-- Assembler state for a base64 part: the bytes forwarded so far and the
pending textual remainder `tmp`. -/
structure B64State where
  out : List Nat
  tmp : List Nat
deriving DecidableEq, Repr

/-- The `base64` branch of `_onPartData`: append the chunk's ASCII text to
the remainder, decode the longest prefix whose length is a multiple of four
(`(tmp.length >> 2) << 2`), forward the decoded bytes and retain the
undecoded suffix. -/
def onPartDataB64 (s : B64State) (chunk : List Nat) : B64State :=
  let t := s.tmp ++ asciiOf chunk
  let off := t.length / 4 * 4
  { out := s.out ++ b64decode (t.take off), tmp := t.drop off }

/-- The `base64` branch of `_onPartEnd`: decode and forward the final
remainder.  Returns the concatenation of everything forwarded for the part. -/
def onPartEndB64 (s : B64State) : List Nat := s.out ++ b64decode s.tmp

/-! Part dispatch (`MultipartParser.prototype.handlePart`). -/

/-- The part kinds of `Part.TYPES`. -/
inductive PartType
  | field
  | object
  | stream
deriving DecidableEq, Repr

/-- What `handlePart` does with a completed part: emit the `part` event with
a value, emit it immediately for a stream part, emit an error (the
`_emitError` path reachable only through a part stream `error` event), or
silently skip an unknown type. -/
inductive HandlePartOutcome (V : Type)
  | partEmitted (value : V)
  | streamPartEmitted
  | errorEmitted (e : MultipartErrorKind)
  | skipped
deriving DecidableEq

/-- `MultipartParser.prototype.handlePart`: stream parts are emitted at once;
for the others the accumulated body chunks are concatenated and converted to
text, and an `Object` part's text goes through `try JSON.parse catch` with an
empty object as the fallback value.  `jsonParse` embeds `JSON.parse` on the
UTF-8 text of the bytes (`none` when it would throw), `emptyObject` embeds
`{}`, and `utf8Value` embeds `Buffer.concat(partChunks).toString()`. -/
def handlePart (V : Type) (jsonParse : List Nat → Option V) (emptyObject : V)
    (utf8Value : List Nat → V) (ty : PartType) (bodyChunks : List (List Nat)) :
    HandlePartOutcome V :=
  match ty with
  | .stream => .streamPartEmitted
  | .object =>
    match jsonParse bodyChunks.flatten with
    | some v => .partEmitted v
    | none => .partEmitted emptyObject
  | .field => .partEmitted (utf8Value bodyChunks.flatten)

/-- The `wrapInErrorChecker` helper of
`MultipartParser.prototype._initMultipartByteParser`: every scanner event
handler is a no-op once the parser has errored. -/
def wrapInErrorChecker (α β : Type) (errored : Bool) (f : α → β → β) : α → β → β :=
  fun chunk st => if errored then st else f chunk st

/-! Encoder (`lib/multipart_streamer.js` and `lib/part.js`). -/

/-- A part descriptor as the streamer sees it: the metadata of `Part` plus
the caller-supplied header mapping and the part's fully relayed body bytes
(as text written with the `binary` encoding). -/
structure EncPart where
  name : Option String
  filename : Option String
  contentId : Option String
  contentType : Option String
  transferEncoding : Option String
  headers : List (String × String)
  body : String
deriving DecidableEq, Repr

/-- JavaScript object property assignment on the insertion-ordered header
mapping: an existing key keeps its position and gets the new value, a new
key is appended. -/
def setHeader (hs : List (String × String)) (k v : String) : List (String × String) :=
  if hs.any (fun p => p.1 = k) then hs.map (fun p => if p.1 = k then (k, v) else p)
  else hs ++ [(k, v)]

/-- The `part.id` property read by the streamer's Content-ID synthesis.
`part.js` documents this accessor as `Part#id` but registers it under the
name `contentId` (`Object.defineProperty(Part.prototype, 'contentId', ...)`),
so reading `id` on a `Part` always yields `undefined`, whatever the part's
`contentId` is. -/
def partIdProperty (_p : EncPart) : Option String := none

/-- Header synthesis of `MultipartStreamer.prototype._setup` for one part:
build `Content-Disposition` from `name`/`filename` when either is present,
add `Content-ID` when `part.id` is defined, then `Content-Type` and
`Content-Transfer-Encoding` when present. -/
def partHeaders (p : EncPart) : List (String × String) :=
  let cd := ["form-data"]
    ++ (match p.name with
        | some n => ["name=\"" ++ n ++ "\""]
        | none => [])
    ++ (match p.filename with
        | some f => ["filename=\"" ++ f ++ "\""]
        | none => [])
  let hs := if 1 < cd.length then
      setHeader p.headers "Content-Disposition" (String.intercalate "; " cd)
    else p.headers
  let hs := match partIdProperty p with
    | some i => setHeader hs "Content-ID" ("<" ++ i ++ ">")
    | none => hs
  let hs := match p.contentType with
    | some ct => setHeader hs "Content-Type" ct
    | none => hs
  match p.transferEncoding with
  | some te => setHeader hs "Content-Transfer-Encoding" te
  | none => hs

/-- The `REDUCER` fold producing the serialized header block. -/
def serializeHeaders (hs : List (String × String)) : String :=
  hs.foldl (fun reduced p => reduced ++ p.1 ++ ": " ++ p.2 ++ "\r\n") ""

/-- One part on the wire: `--boundary` CRLF, the header block, a blank line,
the body bytes relayed verbatim, then CRLF. -/
def encodePart (boundary : String) (p : EncPart) : String :=
  "--" ++ boundary ++ "\r\n" ++ serializeHeaders (partHeaders p) ++ "\r\n" ++ p.body ++ "\r\n"

/-- The whole encoded message of `MultipartStreamer.prototype._setup`: each
part in order, then the `--boundary--` CRLF terminator. -/
def encodeMessage (boundary : String) (parts : List EncPart) : String :=
  String.join (parts.map (encodePart boundary)) ++ "--" ++ boundary ++ "--\r\n"


/-! Helper lemmas. -/

theorem b64decode_nil : b64decode [] = [] := rfl

theorem b64val_61 : b64val 61 = none := by decide

theorem b64sextets_append (a : List Nat) (ha : ∀ c ∈ a, (b64val c).isSome = true) :
    ∀ (b : List Nat), b64sextets (a ++ b) = b64sextets a ++ b64sextets b := by
  induction a with
  | nil => intro b; simp [b64sextets]
  | cons c a ih =>
    intro b
    have hc : (b64val c).isSome = true := ha c (by simp)
    have hne : c ≠ 61 := by
      intro h
      rw [h, b64val_61] at hc
      simp at hc
    obtain ⟨w, hw⟩ := Option.isSome_iff_exists.mp hc
    simp only [List.cons_append, b64sextets, if_neg hne, hw]
    rw [show a.append b = a ++ b from rfl, ih (fun x hx => ha x (by simp [hx])) b]

theorem b64sextets_length (a : List Nat) (ha : ∀ c ∈ a, (b64val c).isSome = true) :
    (b64sextets a).length = a.length := by
  induction a with
  | nil => rfl
  | cons c a ih =>
    have hc : (b64val c).isSome = true := ha c (by simp)
    have hne : c ≠ 61 := by
      intro h
      rw [h, b64val_61] at hc
      simp at hc
    obtain ⟨w, hw⟩ := Option.isSome_iff_exists.mp hc
    simp only [b64sextets, if_neg hne, hw, List.length_cons]
    rw [ih (fun x hx => ha x (by simp [hx]))]

theorem b64sextets_stop (a r : List Nat) : b64sextets (a ++ 61 :: r) = b64sextets a := by
  induction a with
  | nil => simp [b64sextets]
  | cons c a ih =>
    by_cases hc : c = 61
    · simp [b64sextets, hc]
    · cases h : b64val c <;> simp [b64sextets, hc, h, ih]

theorem b64bytes_nil : b64bytes [] = [] := rfl

theorem b64bytes_append : ∀ (u w : List Nat), u.length % 4 = 0 →
    b64bytes (u ++ w) = b64bytes u ++ b64bytes w
  | [], w, _ => by simp [b64bytes_nil]
  | [v0], w, h => by simp at h
  | [v0, v1], w, h => by simp at h
  | [v0, v1, v2], w, h => by simp at h
  | v0 :: v1 :: v2 :: v3 :: rest, w, h => by
    have h4 : rest.length % 4 = 0 := by
      simp [List.length_cons] at h
      omega
    simp [b64bytes, b64bytes_append rest w h4]

theorem b64decode_valid_append (a b : List Nat)
    (ha : ∀ c ∈ a, (b64val c).isSome = true) (h4 : a.length % 4 = 0) :
    b64decode (a ++ b) = b64decode a ++ b64decode b := by
  unfold b64decode
  rw [b64sextets_append a ha b, b64bytes_append _ _ (by rw [b64sextets_length a ha]; exact h4)]

theorem b64decode_pad (v : List Nat) (j : Nat) :
    b64decode (v ++ List.replicate j 61) = b64decode v := by
  cases j with
  | zero => simp
  | succ j =>
    unfold b64decode
    rw [List.replicate_succ, b64sextets_stop]

theorem b64decode_split (v : List Nat) (k : Nat)
    (hv : ∀ c ∈ v, (b64val c).isSome = true) (pre X rest : List Nat)
    (hsplit : pre ++ (X ++ rest) = v ++ List.replicate k 61) (h4 : pre.length % 4 = 0) :
    b64decode (pre ++ X) = b64decode pre ++ b64decode X := by
  have htake : (v ++ List.replicate k 61).take pre.length = pre := by
    rw [← hsplit]
    exact List.take_left pre (X ++ rest)
  by_cases hle : pre.length ≤ v.length
  · have hpre : pre = v.take pre.length := by
      calc pre = (v ++ List.replicate k 61).take pre.length := htake.symm
        _ = v.take pre.length := List.take_append_of_le_length hle
    have hvalid : ∀ c ∈ pre, (b64val c).isSome = true := by
      intro x hx
      rw [hpre] at hx
      exact hv x (List.take_subset _ _ hx)
    exact b64decode_valid_append pre X hvalid h4
  · have hlenle : pre.length ≤ v.length + k := by
      have hl := congrArg List.length hsplit
      simp [List.length_append, List.length_replicate] at hl
      omega
    have hpre : ∃ j, pre = v ++ List.replicate j 61 := by
      refine ⟨(pre.length - v.length) ⊓ k, ?_⟩
      calc pre = (v ++ List.replicate k 61).take pre.length := htake.symm
        _ = v.take pre.length ++ (List.replicate k 61).take (pre.length - v.length) := by
            rw [List.take_append_eq_append_take]
        _ = v ++ (List.replicate k 61).take (pre.length - v.length) := by
            rw [List.take_of_length_le (by omega)]
        _ = v ++ List.replicate ((pre.length - v.length) ⊓ k) 61 := by
            rw [List.take_replicate]
    have hXex : ∃ m, X = List.replicate m 61 := by
      refine ⟨X.length ⊓ (k - (pre.length - v.length)), ?_⟩
      calc X = (X ++ rest).take X.length := (List.take_left X rest).symm
        _ = ((v ++ List.replicate k 61).drop pre.length).take X.length := by
            rw [← hsplit, List.drop_left]
        _ = (v.drop pre.length
              ++ (List.replicate k 61).drop (pre.length - v.length)).take X.length := by
            rw [List.drop_append_eq_append_drop]
        _ = (List.replicate (k - (pre.length - v.length)) 61).take X.length := by
            rw [List.drop_eq_nil_of_le (by omega), List.drop_replicate, List.nil_append]
        _ = List.replicate (X.length ⊓ (k - (pre.length - v.length))) 61 := by
            rw [List.take_replicate]
    obtain ⟨j, hpre⟩ := hpre
    obtain ⟨m, hXm⟩ := hXex
    rw [hpre, hXm, List.append_assoc, ← List.replicate_add, b64decode_pad, b64decode_pad]
    have hnil : b64decode (List.replicate m 61) = [] := by
      have h0 := b64decode_pad [] m
      simpa [b64decode_nil] using h0
    rw [hnil, List.append_nil]

theorem onPartEndB64_foldl (v : List Nat) (k : Nat)
    (hv : ∀ c ∈ v, (b64val c).isSome = true) (chunks : List (List Nat)) :
    ∀ (s : B64State) (pre : List Nat), pre.length % 4 = 0 → s.out = b64decode pre →
    pre ++ (s.tmp ++ (chunks.map asciiOf).flatten) = v ++ List.replicate k 61 →
    onPartEndB64 (List.foldl onPartDataB64 s chunks) = b64decode (v ++ List.replicate k 61) := by
  induction chunks with
  | nil =>
    intro s pre hlen hout hsplit
    simp only [List.map_nil, List.flatten_nil, List.append_nil] at hsplit
    rw [← hsplit,
      b64decode_split v k hv pre s.tmp [] (by rw [List.append_nil]; exact hsplit) hlen]
    simp [onPartEndB64, hout]
  | cons c cs ih =>
    intro s pre hlen hout hsplit
    simp only [List.foldl_cons]
    have hoff4 : (s.tmp ++ asciiOf c).length / 4 * 4 % 4 = 0 := Nat.mul_mod_left _ 4
    have hoffle : (s.tmp ++ asciiOf c).length / 4 * 4 ≤ (s.tmp ++ asciiOf c).length :=
      Nat.div_mul_le_self _ _
    have htake : ((s.tmp ++ asciiOf c).take ((s.tmp ++ asciiOf c).length / 4 * 4)).length
        = (s.tmp ++ asciiOf c).length / 4 * 4 := by
      simp [List.length_take]
      omega
    have hsplit2 : pre ++ ((s.tmp ++ asciiOf c).take ((s.tmp ++ asciiOf c).length / 4 * 4)
        ++ ((s.tmp ++ asciiOf c).drop ((s.tmp ++ asciiOf c).length / 4 * 4)
            ++ (cs.map asciiOf).flatten))
        = v ++ List.replicate k 61 := by
      rw [← List.append_assoc ((s.tmp ++ asciiOf c).take _), List.take_append_drop]
      rw [← hsplit]
      simp [List.append_assoc]
    have hlen' : (pre ++ (s.tmp ++ asciiOf c).take ((s.tmp ++ asciiOf c).length / 4 * 4)).length
        % 4 = 0 := by
      simp [List.length_append, htake]
      omega
    have hout' : (onPartDataB64 s c).out
        = b64decode (pre ++ (s.tmp ++ asciiOf c).take ((s.tmp ++ asciiOf c).length / 4 * 4)) := by
      simp only [onPartDataB64, hout]
      rw [b64decode_split v k hv pre _ _ hsplit2 hlen]
    have hsplit' : (pre ++ (s.tmp ++ asciiOf c).take ((s.tmp ++ asciiOf c).length / 4 * 4))
        ++ ((onPartDataB64 s c).tmp ++ (cs.map asciiOf).flatten)
        = v ++ List.replicate k 61 := by
      have htmp : (onPartDataB64 s c).tmp
          = (s.tmp ++ asciiOf c).drop ((s.tmp ++ asciiOf c).length / 4 * 4) := rfl
      rw [htmp, List.append_assoc]
      exact hsplit2
    exact ih (onPartDataB64 s c) _ hlen' hout' hsplit'

theorem asciiOf_flatten (chunks : List (List Nat)) :
    asciiOf chunks.flatten = (chunks.map asciiOf).flatten := by
  induction chunks with
  | nil => rfl
  | cons c cs ih => simp [asciiOf, List.map_append] at ih ⊢; exact ih

theorem runParts_below (m : Nat) : ∀ (k len : Nat), len + k < m → runParts m k len = none := by
  intro k
  induction k with
  | zero => intro len _; rfl
  | succ k ih =>
    intro len h
    have hc : onPartBeginCheck m len = false := by
      simp [onPartBeginCheck]
      omega
    simp only [runParts, hc, Bool.false_eq_true, if_false]
    exact ih (len + 1) (by omega)

theorem runParts_reach (m : Nat) : ∀ (k len : Nat), len < m → m ≤ len + k →
    runParts m k len = some m := by
  intro k
  induction k with
  | zero => intro len h1 h2; omega
  | succ k ih =>
    intro len h1 h2
    by_cases hc : m - 1 ≤ len
    · have hb : onPartBeginCheck m len = true := by
        simp [onPartBeginCheck]
        omega
      simp only [runParts, hb, if_true]
      have : len + 1 = m := by omega
      rw [this]
    · have hb : onPartBeginCheck m len = false := by
        simp [onPartBeginCheck]
        omega
      simp only [runParts, hb, Bool.false_eq_true, if_false]
      exact ih (len + 1) (by omega) (by omega)

theorem transform_end_discard (bd : List Nat) (s : ByteParserState) (chunk : List Nat)
    (herr : s.error = false) (hst : s.state = STATE.END) (hne : chunk ≠ []) :
    transform bd s chunk = (s, [], none) := by
  cases chunk with
  | nil => exact absurd rfl hne
  | cons c cs =>
    have h1 : scanLoop bd (c :: cs) (2 * (c :: cs).length + 2) s 0 []
        = (s, 0, [], LoopEnd.early) := by
      rw [show 2 * (c :: cs).length + 2 = (2 * (c :: cs).length + 1) + 1 from rfl]
      rw [scanLoop]
      simp [iter, hst]
    rw [transform, if_neg (by simp [herr]), h1]

theorem runChunks_append (bd : List Nat) (xs ys : List (List Nat)) : ∀ (s : ByteParserState),
    runChunks bd s (xs ++ ys) =
      ((runChunks bd (runChunks bd s xs).1 ys).1,
       (runChunks bd s xs).2.1 ++ (runChunks bd (runChunks bd s xs).1 ys).2.1,
       match (runChunks bd s xs).2.2 with
       | some m => some m
       | none => (runChunks bd (runChunks bd s xs).1 ys).2.2) := by
  induction xs with
  | nil =>
    intro s
    simp [runChunks]
  | cons c cs ih =>
    intro s
    simp only [List.cons_append, runChunks]
    rw [show cs.append ys = cs ++ ys from rfl, ih]
    cases h : (transform bd s c).2.2 <;> simp [List.append_assoc]

/-! Claim theorems. -/

/-- C1 (code bug): chunk-split invariance fails.  The valid message
`--b CRLF A: x CRLF CRLF A CR LF - CRLF --b-- CRLF` (boundary `b`, one part
with body `A CR LF -`) delivered as one chunk yields the clean event
sequence, but splitting it at offset 24 makes the decoder emit an extra
spurious `partData` fragment (`CR LF - - b - -`) after `partEnd`: the
part-data marker lingers after an empty-span emit and the end-of-chunk flush
then emits stale bytes.  So the two deliveries disagree even after fragment
concatenation. -/
theorem chunkSplitInvariance_fails :
    mergeEvents (sessionEvents (constructBoundary (strBytes "b"))
        [(strBytes "--b\r\nA: x\r\n\r\nA\r\n-\r\n--b--\r\n").take 24,
         (strBytes "--b\r\nA: x\r\n\r\nA\r\n-\r\n--b--\r\n").drop 24]).1
      ≠ mergeEvents (sessionEvents (constructBoundary (strBytes "b"))
        [strBytes "--b\r\nA: x\r\n\r\nA\r\n-\r\n--b--\r\n"]).1 := by
  decide

/-- C2 (code bug): while reading a header name the scanner rejects the
letters `z` (byte 122) and `Z` with a fatal ParseError, because
`lodash.inRange(lowByte, 97, 122)` excludes its upper bound; the adjacent
letter `y` is accepted.  The claim says every ASCII letter including `z` and
`Z` is accepted. -/
theorem headerName_z_rejected :
    (transform (constructBoundary (strBytes "b"))
        (initState (constructBoundary (strBytes "b")).length) (strBytes "--b\r\nz")).2.2
      = some "Invalid character found parsing header field name!"
    ∧ (transform (constructBoundary (strBytes "b"))
        (initState (constructBoundary (strBytes "b")).length) (strBytes "--b\r\nZ")).2.2
      = some "Invalid character found parsing header field name!"
    ∧ (transform (constructBoundary (strBytes "b"))
        (initState (constructBoundary (strBytes "b")).length) (strBytes "--b\r\ny")).2.2
      = none := by
  decide

/-- C3: with limit `maxParts`, a message of at most `maxParts - 1` parts
never triggers `TooManyParts`, while a message of more than `maxParts - 1`
parts fails exactly at the `partBegin` of part number `maxParts` (1-based),
before that part's headers are processed, and the session halts there. -/
theorem maxParts_threshold (maxParts n : Nat) (hm : 1 ≤ maxParts) :
    (n ≤ maxParts - 1 → runParts maxParts n 0 = none)
    ∧ (maxParts - 1 < n → runParts maxParts n 0 = some maxParts) :=
  ⟨fun h => runParts_below maxParts n 0 (by omega),
   fun h => runParts_reach maxParts n 0 (by omega) (by omega)⟩

/-- Witness for C3 at the default limit 10: nine parts decode, ten fail at
the tenth part's `partBegin`. -/
theorem maxParts_threshold_witness :
    runParts 10 9 0 = none ∧ runParts 10 10 0 = some 10 :=
  ⟨(maxParts_threshold 10 9 (by decide)).1 (by decide),
   (maxParts_threshold 10 10 (by decide)).2 (by decide)⟩

/-- C4 (counterexample): the claim's for-every-fragmentation conclusion
fails on the program.  For the body text `Q!UJDDDD` — whose `!` is outside
the base64 alphabet — the remainder logic keeps the pending text 4-aligned
on raw characters while Node's decoder skips the `!` globally and regroups
the surviving sextets, so the fragmentation `Q!UJ` / `DDDD` forwards
different bytes than the single-fragment delivery, and neither the former
equals the base64 decoding of the whole body text. -/
theorem base64_fragmentation_counterexample :
    onPartEndB64 (List.foldl onPartDataB64 ⟨[], []⟩ [strBytes "Q!UJ", strBytes "DDDD"])
      ≠ b64decode (asciiOf (strBytes "Q!UJDDDD"))
    ∧ onPartEndB64 (List.foldl onPartDataB64 ⟨[], []⟩ [strBytes "Q!UJ", strBytes "DDDD"])
      ≠ onPartEndB64 (List.foldl onPartDataB64 ⟨[], []⟩ [strBytes "Q!UJDDDD"]) := by
  decide

/-- C4 (amended): the incremental base64 assembler (append the fragment's
ASCII text to the pending remainder, decode the longest 4-aligned prefix,
forward the decoded bytes, retain the suffix, and decode the final remainder
at `partEnd`) forwards, over any fragmentation of the body into `partData`
events, exactly the base64 decoding of the whole body text, provided that
text is well-formed base64: alphabet characters optionally followed by
trailing `=` padding. -/
theorem base64_fragmentation_invariant (chunks : List (List Nat)) (v : List Nat) (k : Nat)
    (hv : ∀ c ∈ v, (b64val c).isSome = true)
    (hbody : asciiOf chunks.flatten = v ++ List.replicate k 61) :
    onPartEndB64 (List.foldl onPartDataB64 ⟨[], []⟩ chunks)
      = b64decode (asciiOf chunks.flatten) := by
  have h := onPartEndB64_foldl v k hv chunks ⟨[], []⟩ [] (by simp) (by simp [b64decode_nil])
    (by simpa [asciiOf_flatten] using hbody)
  rw [h, hbody]

/-- Witness for C4 on the padded base64 body `Zm9vYg==` split mid-group. -/
theorem base64_fragmentation_invariant_witness :
    onPartEndB64 (List.foldl onPartDataB64 ⟨[], []⟩ [strBytes "Zm", strBytes "9vYg=="])
      = b64decode (asciiOf ([strBytes "Zm", strBytes "9vYg=="] : List (List Nat)).flatten) :=
  base64_fragmentation_invariant [strBytes "Zm", strBytes "9vYg=="] (strBytes "Zm9vYg") 2
    (by decide) (by decide)

/-- C5: each `partData` fragment's length is added to the per-part and
session counts and checked before the fragment is forwarded: the session
fails with `PartTooLarge` exactly when the per-part total exceeds
`maxPartSize`, with `MessageTooLarge` when the session total exceeds
`maxTotalSize`, and otherwise the updated counts include the fragment that is
then forwarded; with `maxPartSize = 2` a part with a 3-byte body fails during
data processing, never reaching `partEnd`. -/
theorem sizeLimit_timing (maxPartSize maxTotalSize : Nat) (s : PartSizeState)
    (chunk : List Nat) :
    (maxPartSize < s.partSize + chunk.length →
        onPartDataSize maxPartSize maxTotalSize s chunk = .error .PartTooLarge)
    ∧ (s.partSize + chunk.length ≤ maxPartSize → maxTotalSize < s.totalSize + chunk.length →
        onPartDataSize maxPartSize maxTotalSize s chunk = .error .MessageTooLarge)
    ∧ (s.partSize + chunk.length ≤ maxPartSize → s.totalSize + chunk.length ≤ maxTotalSize →
        onPartDataSize maxPartSize maxTotalSize s chunk =
          .ok { partSize := s.partSize + chunk.length,
                totalSize := s.totalSize + chunk.length,
                forwarded := s.forwarded ++ [chunk] })
    ∧ runPartBody 2 100 ⟨0, 0, []⟩ [[104, 105, 33]] = .dataError .PartTooLarge := by
  refine ⟨?_, ?_, ?_, by decide⟩
  · intro h1
    unfold onPartDataSize
    rw [if_pos h1]
  · intro h1 h2
    unfold onPartDataSize
    rw [if_neg (by omega), if_pos h2]
  · intro h1 h2
    unfold onPartDataSize
    rw [if_neg (by omega), if_neg (by omega)]

/-- Witness for C5 with `maxPartSize = 2` and a 3-byte fragment. -/
theorem sizeLimit_timing_witness :
    onPartDataSize 2 100 ⟨0, 0, []⟩ [104, 105, 33] = .error .PartTooLarge :=
  (sizeLimit_timing 2 100 ⟨0, 0, []⟩ [104, 105, 33]).1 (by decide)

/-- C6 (code bug): the encoder never writes a Content-ID header, even for a
part whose contentId is set, because the streamer reads `part.id` while
`part.js` registers the accessor under `contentId` (its own doc comment
names it `Part#id`).  Here a part with contentId `cid`, name `n`,
content-type `text/plain` and body `X` is encoded with boundary `b`: the
output has the boundary line, the synthesized Content-Disposition and
Content-Type lines, the blank line, the body and the terminator, but no
Content-ID line. -/
theorem contentId_header_not_synthesized :
    encodeMessage "b"
        [{ name := some "n", filename := none, contentId := some "cid",
           contentType := some "text/plain", transferEncoding := none,
           headers := [], body := "X" }]
      = "--b\r\nContent-Disposition: form-data; name=\"n\"\r\nContent-Type: text/plain\r\n"
          ++ "\r\nX\r\n--b--\r\n" := by
  decide

/-- C7: the `finish` handler raises ParseError ("unexpected end of multipart
message") and suppresses the `end` signal whenever the scanner is not in the
`END` state, and emits `end` with no error when it is; decoding the bare
bytes `--boundary` ends outside the `END` state, so that session errors and
never emits `end`. -/
theorem truncated_input_detection (s : ByteParserState) :
    (s.state ≠ STATE.END → onFinish s = (.parseError, { s with error := true }))
    ∧ (s.state = STATE.END → onFinish s = (.endSignal, s))
    ∧ (sessionEvents (constructBoundary (strBytes "boundary")) [strBytes "--boundary"]).2
        = some "Unexpected end of multipart message!"
    ∧ Event.endOfMessage ∉
        (sessionEvents (constructBoundary (strBytes "boundary")) [strBytes "--boundary"]).1 := by
  refine ⟨?_, ?_, by decide, by decide⟩
  · intro h
    simp [onFinish, h]
  · intro h
    simp [onFinish, h]

/-- Witness for C7 at the fresh state, which is not in the `END` state. -/
theorem truncated_input_detection_witness :
    onFinish (initState 5) = (.parseError, { initState 5 with error := true }) :=
  (truncated_input_detection (initState 5)).1 (by decide)

/-- C8: for an `Object` part whose accumulated body bytes fail JSON parsing,
`handlePart` still emits the completed part, with the empty object as its
value, and raises no error. -/
theorem objectPart_json_fallback (V : Type) (jsonParse : List Nat → Option V)
    (emptyObject : V) (utf8Value : List Nat → V) (bodyChunks : List (List Nat))
    (h : jsonParse bodyChunks.flatten = none) :
    handlePart V jsonParse emptyObject utf8Value .object bodyChunks
      = .partEmitted emptyObject := by
  simp [handlePart, h]

/-- Witness for C8 with a failing parse on the body `{o`. -/
theorem objectPart_json_fallback_witness :
    handlePart Nat (fun _ => none) 0 (fun _ => 1) .object [[123, 111]]
      = .partEmitted 0 :=
  objectPart_json_fallback Nat (fun _ => none) 0 (fun _ => 1) [[123, 111]] rfl

/-- C9: once the session has errored, `_transform` accepts and discards every
further chunk without scanning it — the state is unchanged and no event and
no further error is produced — and every assembler event handler wrapped in
the error checker is a no-op. -/
theorem closed_error_state (bd : List Nat) (s : ByteParserState) (chunk : List Nat)
    (h : s.error = true) :
    transform bd s chunk = (s, [], none)
    ∧ ∀ (α β : Type) (f : α → β → β) (c : α) (st : β),
        wrapInErrorChecker α β true f c st = st := by
  constructor
  · simp [transform, h]
  · intro α β f c st
    rfl

/-- Witness for C9 on an errored state fed a further chunk. -/
theorem closed_error_state_witness :
    transform (constructBoundary (strBytes "b"))
        { initState 5 with error := true } [1, 2, 3]
      = ({ initState 5 with error := true }, [], none) :=
  (closed_error_state (constructBoundary (strBytes "b"))
    { initState 5 with error := true } [1, 2, 3] rfl).1

/-- C10 (counterexample): the claim's conclusion that a message followed by
arbitrary trailing garbage decodes to exactly the same event sequence as the
message alone fails when the garbage is appended inside the same chunk: for
the message `--b CRLF A: x CRLF CRLF CRLF --b--` the bare delivery flushes a
stale part-data marker into a final spurious `partData` event, while with a
trailing `Q` in the same chunk the `END` state returns early and that flush
never runs, so the two event sequences differ. -/
theorem trailing_garbage_same_chunk_counterexample :
    (sessionEvents (constructBoundary (strBytes "b"))
        [strBytes "--b\r\nA: x\r\n\r\n\r\n--b--" ++ strBytes "Q"]).1
      ≠ (sessionEvents (constructBoundary (strBytes "b"))
        [strBytes "--b\r\nA: x\r\n\r\n\r\n--b--"]).1 := by
  decide

/-- C10 (amended): once a delivery has left the scanner in the `END` state
with no error, every further non-empty chunk is silently discarded — the
session's state, event sequence and error are exactly those of the shorter
delivery — and the session still completes normally with the `end` signal. -/
theorem end_state_discards_subsequent_chunks (bd : List Nat) (chunks : List (List Nat))
    (g : List Nat) (hg : g ≠ [])
    (hend : (runChunks bd (initState bd.length) chunks).1.state = STATE.END)
    (herr : (runChunks bd (initState bd.length) chunks).1.error = false) :
    sessionEvents bd (chunks ++ [g]) = sessionEvents bd chunks
    ∧ (onFinish (runChunks bd (initState bd.length) chunks).1).1 = .endSignal := by
  have hT : transform bd (runChunks bd (initState bd.length) chunks).1 g
      = ((runChunks bd (initState bd.length) chunks).1, [], none) :=
    transform_end_discard bd _ g herr hend hg
  have hrun : runChunks bd (initState bd.length) (chunks ++ [g])
      = runChunks bd (initState bd.length) chunks := by
    rw [runChunks_append]
    simp [runChunks, hT]
    cases h : (runChunks bd (initState bd.length) chunks).2.2
    · simp only [h]
      rw [← h]
    · simp only [h]
      rw [← h]
  constructor
  · unfold sessionEvents
    rw [hrun]
  · simp [onFinish, hend]

/-- Witness for C10: garbage delivered as a second chunk after a complete
one-part message changes nothing. -/
theorem end_state_discards_subsequent_chunks_witness :
    sessionEvents (constructBoundary (strBytes "b"))
        ([strBytes "--b\r\nA: x\r\n\r\nhi\r\n--b--\r\n"] ++ [strBytes "junk"])
      = sessionEvents (constructBoundary (strBytes "b"))
        [strBytes "--b\r\nA: x\r\n\r\nhi\r\n--b--\r\n"] :=
  (end_state_discards_subsequent_chunks (constructBoundary (strBytes "b"))
    [strBytes "--b\r\nA: x\r\n\r\nhi\r\n--b--\r\n"] (strBytes "junk")
    (by decide) (by decide) (by decide)).1
